import Mathlib

/-!
Verification of the ForgeFlow repository-access layer against its design
specification.  The Rust sources are shallowly embedded as executable Lean
definitions: strings are Lean strings (lists of characters), machine
integers are natural numbers reduced modulo 2^32 where overflow matters,
fallible operations return `Except`, and network calls are modelled as
explicit oracle functions passed to the embedded control flow.
-/

namespace ForgeFlow

/-! ## String helpers mirroring the Rust standard-library operations used -/

/-- Rust `s.trim_end_matches('/')`: remove every trailing separator. -/
def trimEndSlashes (s : String) : String :=
  ⟨(s.data.reverse.dropWhile (· == '/')).reverse⟩

/-- Rust `s.trim_start_matches('/')`: remove every leading separator. -/
def trimStartSlashes (s : String) : String :=
  ⟨s.data.dropWhile (· == '/')⟩

/-- Rust `s.trim_matches('/')`: remove separators at both ends. -/
def trimSlashes (s : String) : String :=
  trimEndSlashes (trimStartSlashes s)

/-- Rust `s.starts_with(p)` on string patterns. -/
def strStartsWith (s p : String) : Bool :=
  p.data.isPrefixOf s.data

/-- Rust `s.strip_prefix(p)`. -/
def stripPrefixStr (s p : String) : Option String :=
  if p.data.isPrefixOf s.data then some ⟨s.data.drop p.data.length⟩ else none

/-- Rust `s.ends_with('/')`. -/
def endsWithSlash (s : String) : Bool :=
  s.data.getLast? == some '/'

/-- Rust `s.split('/').next_back().unwrap_or(s)`: the last `/`-separated
segment of a string (the whole string when it has no separator). -/
def lastSegment (s : String) : String :=
  ⟨(s.data.reverse.takeWhile (· != '/')).reverse⟩

/-- Rust `s.split_whitespace().next()`: the first maximal run of
non-whitespace characters, if any. -/
def firstWord (s : String) : Option String :=
  match s.data.dropWhile Char.isWhitespace with
  | [] => none
  | c :: cs => some ⟨(c :: cs).takeWhile (fun x => !x.isWhitespace)⟩

/-- Rust `s.replace(':', "")`. -/
def removeColons (s : String) : String :=
  ⟨s.data.filter (· != ':')⟩

/-- Rust `s.replace('/', "-")`. -/
def slashesToDashes (s : String) : String :=
  ⟨s.data.map (fun c => if c == '/' then '-' else c)⟩

/-- Rust `s.to_lowercase()` (restricted to the simple one-character
lowercase mapping). -/
def toLowerStr (s : String) : String :=
  ⟨s.data.map Char.toLower⟩

/-- Rust `s.to_lowercase().contains(pat)` for a string pattern. -/
def containsSub (s pat : String) : Bool :=
  decide (pat.data <:+: s.data)

/-- UTF-8 encoding of one character, as byte values. -/
def utf8Char (c : Char) : List Nat :=
  let n := c.toNat
  if n < 128 then [n]
  else if n < 2048 then
    [192 ||| (n >>> 6), 128 ||| (n &&& 63)]
  else if n < 65536 then
    [224 ||| (n >>> 12), 128 ||| ((n >>> 6) &&& 63), 128 ||| (n &&& 63)]
  else
    [240 ||| (n >>> 18), 128 ||| ((n >>> 12) &&& 63),
     128 ||| ((n >>> 6) &&& 63), 128 ||| (n &&& 63)]

/-- Rust `s.as_bytes()`: the UTF-8 bytes of a string. -/
def utf8Bytes (s : String) : List Nat :=
  (s.data.map utf8Char).flatten

/-! ## SHA-256 (`sha2::Sha256`), over byte lists, words as `Nat mod 2^32` -/

/-- Truncate to a 32-bit word. -/
def w32 (x : Nat) : Nat := x % 4294967296

/-- Rotate a 32-bit word right by `n` bits. -/
def rotr32 (n x : Nat) : Nat := w32 ((x >>> n) ||| (x <<< (32 - n)))

/-- The SHA-256 round constants (FIPS 180-4, in decimal). -/
def shaK : List Nat :=
  [1116352408, 1899447441, 3049323471, 3921009573,
   961987163, 1508970993, 2453635748, 2870763221,
   3624381080, 310598401, 607225278, 1426881987,
   1925078388, 2162078206, 2614888103, 3248222580,
   3835390401, 4022224774, 264347078, 604807628,
   770255983, 1249150122, 1555081692, 1996064986,
   2554220882, 2821834349, 2952996808, 3210313671,
   3336571891, 3584528711, 113926993, 338241895,
   666307205, 773529912, 1294757372, 1396182291,
   1695183700, 1986661051, 2177026350, 2456956037,
   2730485921, 2820302411, 3259730800, 3345764771,
   3516065817, 3600352804, 4094571909, 275423344,
   430227734, 506948616, 659060556, 883997877,
   958139571, 1322822218, 1537002063, 1747873779,
   1955562222, 2024104815, 2227730452, 2361852424,
   2428436474, 2756734187, 3204031479, 3329325298]

/-- Working state of the SHA-256 compression function. -/
structure Sha256State where
  a : Nat
  b : Nat
  c : Nat
  d : Nat
  e : Nat
  f : Nat
  g : Nat
  h : Nat
deriving Repr, DecidableEq

/-- The SHA-256 initial hash value. -/
def shaInit : Sha256State :=
  ⟨1779033703, 3144134277, 1013904242, 2773480762,
   1359893119, 2600822924, 528734635, 1541459225⟩

/-- One round of the SHA-256 compression function. -/
def shaRound (st : Sha256State) (kw : Nat × Nat) : Sha256State :=
  let s1 := (rotr32 6 st.e) ^^^ (rotr32 11 st.e) ^^^ (rotr32 25 st.e)
  let ch := (st.e &&& st.f) ^^^ ((st.e ^^^ 4294967295) &&& st.g)
  let temp1 := w32 (st.h + s1 + ch + kw.1 + kw.2)
  let s0 := (rotr32 2 st.a) ^^^ (rotr32 13 st.a) ^^^ (rotr32 22 st.a)
  let maj := (st.a &&& st.b) ^^^ (st.a &&& st.c) ^^^ (st.b &&& st.c)
  let temp2 := w32 (s0 + maj)
  ⟨w32 (temp1 + temp2), st.a, st.b, st.c, w32 (st.d + temp1), st.e, st.f, st.g⟩

/-- Extend sixteen message words to the 64-word SHA-256 schedule. -/
def shaSchedule (block : List Nat) : List Nat :=
  (List.range 48).foldl
    (fun w _ =>
      let n := w.length
      let w15 := w.getD (n - 15) 0
      let w2 := w.getD (n - 2) 0
      let s0 := (rotr32 7 w15) ^^^ (rotr32 18 w15) ^^^ (w15 >>> 3)
      let s1 := (rotr32 17 w2) ^^^ (rotr32 19 w2) ^^^ (w2 >>> 10)
      w ++ [w32 (w.getD (n - 16) 0 + s0 + w.getD (n - 7) 0 + s1)])
    block

/-- Process one 64-byte block (given as sixteen words). -/
def shaBlock (hs : Sha256State) (block : List Nat) : Sha256State :=
  let st := ((shaK.zip (shaSchedule block)).foldl shaRound hs)
  ⟨w32 (hs.a + st.a), w32 (hs.b + st.b), w32 (hs.c + st.c), w32 (hs.d + st.d),
   w32 (hs.e + st.e), w32 (hs.f + st.f), w32 (hs.g + st.g), w32 (hs.h + st.h)⟩

/-- SHA-256 padding: append `0x80`, zeros, then the 64-bit message length. -/
def shaPad (msg : List Nat) : List Nat :=
  let len := msg.length
  let bitLen := 8 * len
  let padZeros := (64 - ((len + 9) % 64)) % 64
  msg ++ [128] ++ List.replicate padZeros 0 ++
    (List.range 8).map (fun i => (bitLen >>> (8 * (7 - i))) &&& 255)

/-- Group bytes into big-endian 32-bit words. -/
def bytesToWords (l : List Nat) : List Nat :=
  (List.range (l.length / 4)).map
    (fun i =>
      (l.getD (4 * i) 0 <<< 24) ||| (l.getD (4 * i + 1) 0 <<< 16) |||
      (l.getD (4 * i + 2) 0 <<< 8) ||| l.getD (4 * i + 3) 0)

/-- Split a 32-bit word into four big-endian bytes. -/
def wordBytes (wrd : Nat) : List Nat :=
  [(wrd >>> 24) &&& 255, (wrd >>> 16) &&& 255, (wrd >>> 8) &&& 255, wrd &&& 255]

/-- The SHA-256 digest (32 bytes) of a byte list. -/
def sha256Bytes (msg : List Nat) : List Nat :=
  let padded := shaPad msg
  let final :=
    (List.range (padded.length / 64)).foldl
      (fun hs i => shaBlock hs (bytesToWords ((padded.drop (64 * i)).take 64)))
      shaInit
  ([final.a, final.b, final.c, final.d,
    final.e, final.f, final.g, final.h].map wordBytes).flatten

/-- Lowercase hexadecimal digit. -/
def hexDigit (n : Nat) : Char :=
  "0123456789abcdef".data.getD n '0'

/-- Lowercase hexadecimal rendering of a byte list, mirroring Rust
`format!("{:x}", digest)`. -/
def bytesToHex (bs : List Nat) : String :=
  ⟨(bs.map (fun b => [hexDigit (b / 16), hexDigit (b % 16)])).flatten⟩

/-- Hex digest of the SHA-256 hash of a string (its UTF-8 bytes). -/
def sha256Hex (s : String) : String :=
  bytesToHex (sha256Bytes (utf8Bytes s))

/-- Character-level prefix of a string (all hex digests here are ASCII, so
this agrees with the byte slice taken by the Rust code). -/
def strTake (s : String) (n : Nat) : String :=
  ⟨s.data.take n⟩

/-- Rust `format!("{:x}", Sha256::digest(s.as_bytes()))[..16]`: the first
sixteen hex characters of the SHA-256 digest. -/
def hash16 (s : String) : String :=
  strTake (sha256Hex s) 16

/-! ## Canonical data model (`src/api/types.rs`) -/

/-- Repository tree entry (`TreeItem` in `src/api/types.rs`). -/
structure TreeItem where
  id : String
  name : String
  item_type : String
  path : String
  mode : String
deriving Repr, DecidableEq

/-- Method `TreeItem::is_dir`. -/
def TreeItem.is_dir (t : TreeItem) : Bool :=
  t.item_type == "tree" || strStartsWith t.mode "4"

/-- Method `TreeItem::is_file`. -/
def TreeItem.is_file (t : TreeItem) : Bool :=
  t.item_type == "blob" || strStartsWith t.mode "100"

/-! ## Tree materializer (`src/api/gitcode/types.rs` and
`GitCodeProvider::process_paths` in `src/api/gitcode/mod.rs`).

The Rust code deduplicates immediate children through a `HashMap` whose
iteration order is unspecified; the embedding keeps the children in
insertion order, which refines the unordered Rust result.  All claims about
the listing are order-insensitive. -/

/-- Function `path_to_tree_item` from `src/api/gitcode/types.rs`. -/
def path_to_tree_item (path : String) : TreeItem :=
  let is_dir := endsWithSlash path
  let trimmed_path := trimEndSlashes path
  let name := lastSegment trimmed_path
  { id := hash16 trimmed_path
    name := name
    item_type := if is_dir then "tree" else "blob"
    path := trimmed_path
    mode := if is_dir then "040000" else "100644" }

/-- Scope normalization in `process_paths`:
`parent_path.map(|p| p.trim_matches('/')).unwrap_or("")`. -/
def scopePre (parent_path : Option String) : String :=
  (parent_path.map trimSlashes).getD ""

/-- The `prefix_with_slash` value computed by `process_paths`. -/
def preWithSlash (pre : String) : String :=
  if pre = "" then "" else pre ++ "/"

/-- The filter predicate of `process_paths`: keep paths equal to the
(normalized) scope or nested under it, comparing after stripping trailing
separators. -/
def underScope (pre : String) (p : String) : Bool :=
  let pt := trimEndSlashes p
  if pre = "" then true else pt == pre || strStartsWith pt (preWithSlash pre)

/-- The `relative_path` computed per path in the non-recursive branch of
`process_paths`: strip the scope prefix, falling back to the whole path
when the prefix does not match. -/
def relativeOf (pre : String) (path : String) : String :=
  if pre = "" then path else (stripPrefixStr path (preWithSlash pre)).getD path

/-- The immediate-child `name` computed in the non-recursive branch of
`process_paths`. -/
def childNameOf (pre : String) (path : String) : String :=
  let trimmed := trimEndSlashes (relativeOf pre path)
  if trimmed.data.contains '/' then ⟨trimmed.data.takeWhile (· != '/')⟩
  else trimmed

/-- The `is_dir` flag computed in the non-recursive branch of
`process_paths`: a nested component forces a directory, otherwise the
original string decides via its trailing separator. -/
def childIsDir (pre : String) (path : String) : Bool :=
  if (trimEndSlashes (relativeOf pre path)).data.contains '/' then true
  else endsWithSlash path

/-- The `full_child_path` reconstructed in the non-recursive branch of
`process_paths`. -/
def childFullPath (pre : String) (path : String) : String :=
  if pre = "" then
    (if childIsDir pre path then childNameOf pre path ++ "/"
     else childNameOf pre path)
  else pre ++ "/" ++ childNameOf pre path

/-- The `TreeItem` inserted for one path by the non-recursive branch of
`process_paths`. -/
def childEntry (pre : String) (path : String) : TreeItem :=
  { id := hash16 (childFullPath pre path)
    name := childNameOf pre path
    item_type := if childIsDir pre path then "tree" else "blob"
    path := trimEndSlashes (childFullPath pre path)
    mode := if childIsDir pre path then "040000" else "100644" }

/-- One deduplicating insertion into the children accumulator (the Rust
`if !children.contains_key(&name) { children.insert(..) }`). -/
def insertChild (acc : List TreeItem) (c : TreeItem) : List TreeItem :=
  if acc.any (fun t => t.name == c.name) then acc else acc ++ [c]

/-- Method `GitCodeProvider::process_paths` from `src/api/gitcode/mod.rs`. -/
def process_paths (paths : List String) (parent_path : Option String)
    (recursive : Bool) : List TreeItem :=
  let pre := scopePre parent_path
  let filtered := paths.filter (underScope pre)
  if recursive then filtered.map path_to_tree_item
  else filtered.foldl (fun acc path => insertChild acc (childEntry pre path)) []

/-! ## Specification-side definitions for the tree materializer claims.

These follow the wording of the specification, for comparison with the
embedded code. -/

/-- Specification wording: a path is listed when it is equal to, or nested
under, the scope (paths compared modulo trailing separators, the scope
modulo surrounding separators). -/
def spec_underScope (scope : Option String) (p : String) : Bool :=
  let s := scopePre scope
  s == "" || trimEndSlashes p == s ||
    strStartsWith (trimEndSlashes p) (s ++ "/")

/-- Specification wording: the path relative to the scope, defined for
members strictly nested under the scope (and for every member when there
is no scope). -/
def spec_relativeTo (scope : Option String) (p : String) : Option String :=
  let s := scopePre scope
  if s = "" then some p else stripPrefixStr p (s ++ "/")

/-- Specification wording: the first path segment of a relative path, when
it has one (an empty relative path has none). -/
def spec_firstSegment (rel : String) : Option String :=
  match (trimEndSlashes rel).data.takeWhile (· != '/') with
  | [] => none
  | c :: cs => some ⟨c :: cs⟩

/-- The set (as a list, possibly with repeats) of first path segments of
the members of `l` relative to scope `s`, as the claim words it. -/
def spec_childNames (l : List String) (scope : Option String) : List String :=
  (l.filter (spec_underScope scope)).filterMap
    (fun p => (spec_relativeTo scope p).bind spec_firstSegment)

/-- The core of the non-recursive materialization claim: the entry names
are exactly the set of first path segments of the members relative to the
scope. -/
def claimC1Names (l : List String) (scope : Option String) : Prop :=
  ((process_paths l scope false).map TreeItem.name).toFinset =
    (spec_childNames l scope).toFinset

/-- Amended specification wording for the relative path: strip the scope
prefix, with the full path as fallback when the member is not strictly
nested under the scope. -/
def spec_relFallback (scope : Option String) (p : String) : String :=
  let s := scopePre scope
  if s = "" then p else (stripPrefixStr p (s ++ "/")).getD p

/-- Amended specification wording for the immediate-child name: the first
path segment of the (trailing-separator-trimmed) relative path, which is
empty when the relative path is empty. -/
def spec_childName (scope : Option String) (p : String) : String :=
  ⟨(trimEndSlashes (spec_relFallback scope p)).data.takeWhile (· != '/')⟩

/-- Amended specification wording for the immediate-child kind: a
directory when the relative path has further segments beyond the first, or
when the original string ends with a separator. -/
def spec_childIsDir (scope : Option String) (p : String) : Bool :=
  (trimEndSlashes (spec_relFallback scope p)).data.contains '/' ||
    endsWithSlash p

/-- First-occurrence deduplication of a list, given an initial set of
already-seen keys. -/
def firstDedupFrom (seen : List String) : List String → List String
  | [] => []
  | n :: ns =>
    if n ∈ seen then firstDedupFrom seen ns
    else n :: firstDedupFrom (seen ++ [n]) ns

/-- First-occurrence deduplication of a list of names. -/
def firstDedup (ns : List String) : List String :=
  firstDedupFrom [] ns

/-- First-occurrence deduplication of tree entries by name, given an
initial set of already-seen names; the reference shape of the accumulator
fold performed by `process_paths`. -/
def dedupNew (seen : List String) : List TreeItem → List TreeItem
  | [] => []
  | c :: cs =>
    if c.name ∈ seen then dedupNew seen cs
    else c :: dedupNew (seen ++ [c.name]) cs

/-! ## Lemmas about the non-recursive materialization -/

theorem contains_iff_mem {α : Type} [BEq α] [LawfulBEq α] (l : List α)
    (x : α) : l.contains x = true ↔ x ∈ l := by
  simp [List.contains]

theorem any_name_iff (acc : List TreeItem) (n : String) :
    (acc.any fun t => t.name == n) = true ↔ n ∈ acc.map TreeItem.name := by
  simp only [List.any_eq_true, beq_iff_eq, List.mem_map]

theorem insertChild_of_mem (acc : List TreeItem) (c : TreeItem)
    (h : c.name ∈ acc.map TreeItem.name) : insertChild acc c = acc := by
  unfold insertChild
  rw [if_pos ((any_name_iff acc c.name).mpr h)]

theorem insertChild_of_not_mem (acc : List TreeItem) (c : TreeItem)
    (h : c.name ∉ acc.map TreeItem.name) : insertChild acc c = acc ++ [c] := by
  unfold insertChild
  rw [if_neg (fun hb => h ((any_name_iff acc c.name).mp hb))]

theorem foldl_insertChild (cs : List TreeItem) : ∀ acc : List TreeItem,
    cs.foldl insertChild acc = acc ++ dedupNew (acc.map TreeItem.name) cs := by
  induction cs with
  | nil => intro acc; simp [dedupNew]
  | cons c cs ih =>
    intro acc
    rw [List.foldl_cons]
    by_cases h : c.name ∈ acc.map TreeItem.name
    · rw [insertChild_of_mem acc c h, ih acc]
      simp [dedupNew, h]
    · rw [insertChild_of_not_mem acc c h, ih (acc ++ [c])]
      simp [dedupNew, h, List.append_assoc]

theorem dedupNew_map_name (cs : List TreeItem) : ∀ seen : List String,
    (dedupNew seen cs).map TreeItem.name =
      firstDedupFrom seen (cs.map TreeItem.name) := by
  induction cs with
  | nil => intro seen; simp [dedupNew, firstDedupFrom]
  | cons c cs ih =>
    intro seen
    by_cases h : c.name ∈ seen <;>
      simp [dedupNew, firstDedupFrom, h, ih]

theorem firstDedupFrom_not_seen (ns : List String) : ∀ seen x,
    x ∈ firstDedupFrom seen ns → x ∉ seen := by
  induction ns with
  | nil => intro seen x hx; simp [firstDedupFrom] at hx
  | cons n ns ih =>
    intro seen x hx
    by_cases h : n ∈ seen
    · simp only [firstDedupFrom, h, if_true] at hx
      exact ih seen x hx
    · simp only [firstDedupFrom, h, if_false, List.mem_cons] at hx
      rcases hx with rfl | hx
      · exact h
      · intro hmem
        exact ih (seen ++ [n]) x hx (by simp [hmem])

theorem firstDedupFrom_nodup (ns : List String) : ∀ seen,
    (firstDedupFrom seen ns).Nodup := by
  induction ns with
  | nil => intro seen; simp [firstDedupFrom]
  | cons n ns ih =>
    intro seen
    by_cases h : n ∈ seen
    · simpa [firstDedupFrom, h] using ih seen
    · simp only [firstDedupFrom, h, if_false]
      refine List.nodup_cons.mpr ⟨?_, ih (seen ++ [n])⟩
      intro hmem
      exact firstDedupFrom_not_seen ns (seen ++ [n]) n hmem (by simp)

theorem dedupNew_mem (cs : List TreeItem) : ∀ seen t, t ∈ dedupNew seen cs →
    t.name ∉ seen ∧ cs.find? (fun c => c.name == t.name) = some t := by
  induction cs with
  | nil => intro seen t ht; simp [dedupNew] at ht
  | cons c cs ih =>
    intro seen t ht
    by_cases h : c.name ∈ seen
    · simp only [dedupNew, h, if_true] at ht
      obtain ⟨hseen, hfind⟩ := ih seen t ht
      have hne : (c.name == t.name) = false := by
        by_cases hcn : c.name = t.name
        · exact absurd (hcn ▸ h) hseen
        · simp [hcn]
      exact ⟨hseen, by rw [List.find?_cons, hne]; exact hfind⟩
    · simp only [dedupNew, h, if_false, List.mem_cons] at ht
      rcases ht with rfl | ht
      · exact ⟨h, by rw [List.find?_cons]; simp⟩
      · obtain ⟨hseen, hfind⟩ := ih (seen ++ [c.name]) t ht
        have hseen0 : t.name ∉ seen := fun hx => hseen (by simp [hx])
        have hne : (c.name == t.name) = false := by
          by_cases hcn : c.name = t.name
          · exact absurd (by simp [hcn]) hseen
          · simp [hcn]
        exact ⟨hseen0, by rw [List.find?_cons, hne]; exact hfind⟩

theorem spec_rel_eq (scope : Option String) (p : String) :
    spec_relFallback scope p = relativeOf (scopePre scope) p := by
  unfold spec_relFallback relativeOf preWithSlash
  by_cases h : scopePre scope = "" <;> simp [h]

theorem takeWhile_eq_self_of_not_mem (l : List Char)
    (h : ¬ '/' ∈ l) : l.takeWhile (· != '/') = l := by
  induction l with
  | nil => rfl
  | cons c cs ih =>
    simp only [List.mem_cons, not_or] at h
    have hne : c ≠ '/' := fun hcc => h.1 hcc.symm
    have hc : (c != '/') = true := by simpa using hne
    simp [List.takeWhile_cons, hc, ih h.2]

theorem childName_eq (scope : Option String) (p : String) :
    childNameOf (scopePre scope) p = spec_childName scope p := by
  unfold childNameOf spec_childName
  rw [spec_rel_eq]
  by_cases h : '/' ∈ (trimEndSlashes (relativeOf (scopePre scope) p)).data
  · rw [if_pos ((contains_iff_mem _ _).mpr h)]
  · rw [if_neg (fun hc => h ((contains_iff_mem _ _).mp hc))]
    rw [takeWhile_eq_self_of_not_mem _ h]

theorem childIsDir_eq (scope : Option String) (p : String) :
    childIsDir (scopePre scope) p = spec_childIsDir scope p := by
  unfold childIsDir spec_childIsDir
  rw [spec_rel_eq]
  by_cases h : '/' ∈ (trimEndSlashes (relativeOf (scopePre scope) p)).data
  · have hb := (contains_iff_mem _ _).mpr h
    simp [hb]
  · have hb : (trimEndSlashes (relativeOf (scopePre scope) p)).data.contains '/' = false :=
      Bool.eq_false_iff.mpr (fun hc => h ((contains_iff_mem _ _).mp hc))
    simp [hb]

theorem underScope_eq (scope : Option String) (p : String) :
    underScope (scopePre scope) p = spec_underScope scope p := by
  unfold underScope spec_underScope preWithSlash
  by_cases h : scopePre scope = ""
  · simp [h]
  · have hb : (scopePre scope == "") = false := by simpa using h
    simp [h, hb]

theorem childEntry_name (scope : Option String) (p : String) :
    (childEntry (scopePre scope) p).name = spec_childName scope p :=
  childName_eq scope p

theorem childEntry_type (scope : Option String) (p : String) :
    (childEntry (scopePre scope) p).item_type =
      if spec_childIsDir scope p then "tree" else "blob" := by
  unfold childEntry
  rw [childIsDir_eq]

theorem process_paths_false_eq (l : List String) (scope : Option String) :
    process_paths l scope false =
      dedupNew [] ((l.filter (spec_underScope scope)).map
        (childEntry (scopePre scope))) := by
  unfold process_paths
  simp only [Bool.false_eq_true, if_false]
  rw [List.filter_congr (fun p _ => underScope_eq scope p)]
  rw [← List.foldl_map (childEntry (scopePre scope)) insertChild]
  rw [foldl_insertChild]
  simp

/-- C1 (amended): for every flat path list and scope, the non-recursive
materialization returns entries whose names are pairwise distinct and
equal to the first-occurrence deduplication of the first path segments of
the filtered members' relative paths, where the relative path of a member
not strictly nested under the scope falls back to the member itself (so a
member equal to the scope with a trailing separator contributes an
empty-named entry); each entry is built from the first filtered member
producing its name and is classified as a directory exactly when its
relative path has further segments beyond the first or the original
string ends with a separator.  In particular, the flat list
`["src/main.x", "src/lib.x", "src/cmd/mod.x", "Readme.md"]` with no scope
yields exactly the entries `src` (directory) and `Readme.md` (file). -/
theorem c1_nonrecursive_materialization :
    (∀ (l : List String) (scope : Option String),
      ((process_paths l scope false).map TreeItem.name).Nodup
      ∧ (process_paths l scope false).map TreeItem.name =
          firstDedup ((l.filter (spec_underScope scope)).map
            (spec_childName scope))
      ∧ (∀ t ∈ process_paths l scope false,
          ∃ p, (l.filter (spec_underScope scope)).find?
                (fun q => spec_childName scope q == t.name) = some p
            ∧ t.name = spec_childName scope p
            ∧ t.item_type = (if spec_childIsDir scope p then "tree"
                             else "blob")))
    ∧ (process_paths ["src/main.x", "src/lib.x", "src/cmd/mod.x",
          "Readme.md"] none false).map (fun t => (t.name, t.item_type)) =
        [("src", "tree"), ("Readme.md", "blob")] := by
  constructor
  · intro l scope
    have hrw := process_paths_false_eq l scope
    refine ⟨?_, ?_, ?_⟩
    · rw [hrw, dedupNew_map_name]
      exact firstDedupFrom_nodup _ []
    · rw [hrw, dedupNew_map_name]
      unfold firstDedup
      congr 1
      rw [List.map_map]
      exact List.map_congr_left (fun p _ => childEntry_name scope p)
    · intro t ht
      rw [hrw] at ht
      obtain ⟨hseen, hfind⟩ := dedupNew_mem _ [] t ht
      rw [List.find?_map] at hfind
      obtain ⟨p, hp, hpt⟩ := Option.map_eq_some'.mp hfind
      have hpred : ((fun c : TreeItem => c.name == t.name) ∘
          childEntry (scopePre scope)) =
          (fun q => spec_childName scope q == t.name) :=
        funext (fun q => by simp [Function.comp, childEntry_name])
      rw [hpred] at hp
      refine ⟨p, hp, ?_, ?_⟩
      · rw [← hpt, childEntry_name]
      · rw [← hpt, childEntry_type]
  · decide

/-- C1 counterexample: for the list `["src/"]` and scope `"src"`, the code
produces one entry whose name is the empty string, while the set of first
path segments of the members relative to the scope is empty, so the entry
names are not equal to that set. -/
theorem c1_counterexample : ¬ claimC1Names ["src/"] (some "src") := by
  unfold claimC1Names
  decide

/-- Witness: the amended C1 theorem applied at a concrete input. -/
theorem c1_nonrecursive_materialization_witness :
    (process_paths ["Readme.md"] none false).map TreeItem.name =
      firstDedup ((["Readme.md"].filter (spec_underScope none)).map
        (spec_childName none)) :=
  (c1_nonrecursive_materialization.1 ["Readme.md"] none).2.1

/-- C2: the recursive materialization returns exactly the members equal to
or nested under the scope, mapped one-to-one by `path_to_tree_item`; an
entry is a directory exactly when the original string carries a trailing
separator, its identifier is the first sixteen hex characters of the
SHA-256 digest of the trailing-separator-stripped path, and two paths that
normalize identically always receive the same identifier. -/
theorem c2_recursive_materialization :
    (∀ (l : List String) (scope : Option String),
      process_paths l scope true =
        (l.filter (spec_underScope scope)).map path_to_tree_item)
    ∧ (∀ p : String,
        ((path_to_tree_item p).item_type = "tree" ↔ endsWithSlash p = true)
        ∧ (path_to_tree_item p).id = strTake (sha256Hex (trimEndSlashes p)) 16
        ∧ ∀ q : String, trimEndSlashes p = trimEndSlashes q →
            (path_to_tree_item p).id = (path_to_tree_item q).id) := by
  constructor
  · intro l scope
    show (l.filter (underScope (scopePre scope))).map path_to_tree_item = _
    rw [List.filter_congr (fun p _ => underScope_eq scope p)]
  · intro p
    refine ⟨?_, ?_, ?_⟩
    · unfold path_to_tree_item
      by_cases h : endsWithSlash p = true
      · simp [h]
      · simp only [Bool.not_eq_true] at h
        simp [h]
    · show hash16 (trimEndSlashes p) = strTake (sha256Hex (trimEndSlashes p)) 16
      rfl
    · intro q hq
      show hash16 (trimEndSlashes p) = hash16 (trimEndSlashes q)
      rw [hq]

/-- Witness: the C2 theorem applied at a concrete input. -/
theorem c2_recursive_materialization_witness :
    (path_to_tree_item "a/").item_type = "tree" :=
  ((c2_recursive_materialization.2 "a/").1).mpr (by decide)

/-- C7 (code evaluated at the failing input): a path exactly equal to the
scope is not excluded from the non-recursive child enumeration; it
produces an entry named like the scope itself, classified as a file, whose
reconstructed path `src/src` names nothing in the input. -/
theorem c7_scope_equal_path_included :
    (process_paths ["src"] (some "src") false).map
        (fun t => (t.name, t.item_type, t.path)) = [("src", "blob", "src/src")]
    ∧ (process_paths ["src"] (some "src") false).length = 1 := by
  constructor
  · decide
  · decide

/-! ## Error taxonomy (`src/error.rs`) -/

/-- The error enumeration `VktError` from `src/error.rs`.  The Rust `Io`
variant wraps a `std::io::Error`; it is embedded by its message. -/
inductive VktError where
  | Config (msg : String)
  | Api (msg : String)
  | Network (msg : String)
  | Io (msg : String)
  | Validation (msg : String)
  | AuthInvalid (msg : String)
  | PermissionDenied (msg : String)
  | RateLimited (msg : String)
  | ApiNotFound (msg : String)
  | Conflict (msg : String)
deriving Repr, DecidableEq

/-- Method `VktError::is_retryable`. -/
def VktError.is_retryable : VktError → Bool
  | .Network _ => true
  | .RateLimited _ => true
  | _ => false

/-- Method `VktError::is_auth_error`. -/
def VktError.is_auth_error : VktError → Bool
  | .AuthInvalid _ => true
  | .PermissionDenied _ => true
  | _ => false

/-- Method `VktError::is_not_found`. -/
def VktError.is_not_found : VktError → Bool
  | .ApiNotFound _ => true
  | _ => false

/-- Constructor-level check used to state taxonomy claims. -/
def VktError.is_rate_limited : VktError → Bool
  | .RateLimited _ => true
  | _ => false

/-- Constructor-level check used to state taxonomy claims. -/
def VktError.is_generic_api : VktError → Bool
  | .Api _ => true
  | _ => false

/-- Constructor-level check used to state taxonomy claims. -/
def VktError.is_conflict : VktError → Bool
  | .Conflict _ => true
  | _ => false

/-- Constructor-level check used to state taxonomy claims. -/
def VktError.is_validation : VktError → Bool
  | .Validation _ => true
  | _ => false

/-! ## HTTP error classification
(`GitCodeProvider::handle_response`, `src/api/gitcode/mod.rs`).

Only the non-success branch is embedded (the success branch is JSON
parsing).  `reqwest::StatusCode::is_success` holds for codes 200-299.  The
Rust code renders the status with its canonical reason phrase inside the
generic message; the embedding renders just the number, which no claim
depends on. -/

/-- Rust `status.is_success()`. -/
def isSuccessStatus (status : Nat) : Bool :=
  200 ≤ status && status < 300

/-- The rate-limit body sniffing done for 403 responses:
`error_text.to_lowercase().contains("rate") || ...contains("limit")`. -/
def bodyLooksRateLimited (errorText : String) : Bool :=
  containsSub (toLowerStr errorText) "rate" ||
    containsSub (toLowerStr errorText) "limit"

/-- The error produced by `handle_response` for a non-success status. -/
def handle_response_error (status : Nat) (errorText : String) : VktError :=
  if status = 401 then
    VktError.AuthInvalid ("Authentication failed: " ++ errorText)
  else if status = 403 then
    (if bodyLooksRateLimited errorText then
      VktError.RateLimited ("Rate limited: " ++ errorText)
    else
      VktError.PermissionDenied ("Permission denied: " ++ errorText))
  else if status = 404 then
    VktError.ApiNotFound ("Resource not found: " ++ errorText)
  else if status = 409 then
    VktError.Conflict ("Resource conflict: " ++ errorText)
  else
    VktError.Api ("API error (HTTP " ++ toString status ++ "): " ++ errorText)

/-- C5 (code evaluated at the failing input): `handle_response` has no
match arm for status 429, so a 429 response whose body carries clear
rate-limit phrasing is classified as a generic `Api` error rather than
`RateLimited` — contradicting both the claim and the `RateLimited (429)`
doc comment in `src/error.rs`.  The 403 body sniffing itself behaves as
claimed on the same body. -/
theorem c5_429_maps_to_generic_api :
    (handle_response_error 429 "rate limit exceeded").is_generic_api = true
    ∧ (handle_response_error 429 "rate limit exceeded").is_rate_limited = false
    ∧ handle_response_error 429 "rate limit exceeded" =
        VktError.Api ("API error (HTTP 429): rate limit exceeded")
    ∧ (handle_response_error 403 "rate limit exceeded").is_rate_limited = true
    ∧ (handle_response_error 403 "access denied").is_rate_limited = false := by
  refine ⟨rfl, rfl, ?_, rfl, ?_⟩
  · decide
  · decide

/-! ## Default `file_exists` (`ForgeProvider::file_exists`,
`src/api/traits.rs`).

The default trait method calls `self.get_file_info(path, ref)` and
inspects the outcome; the probe outcome is passed in explicitly. -/

/-- Canonical `FileInfo` from `src/api/types.rs`. -/
structure FileInfo where
  name : Option String
  path : Option String
  size : Option Nat
  content : Option String
  sha : Option String
deriving Repr, DecidableEq

/-- The default implementation of `ForgeProvider::file_exists`, as a
function of the `get_file_info` probe outcome. -/
def file_exists_default (probe : Except VktError FileInfo) :
    Except VktError Bool :=
  match probe with
  | .ok _ => .ok true
  | .error e => if e.is_not_found then .ok false else .error e

/-- C6: the default `file_exists` returns `false` exactly when the
`get_file_info` probe fails with `ApiNotFound`, returns `true` when the
probe succeeds, and propagates any other error unchanged. -/
theorem c6_file_exists_default :
    ∀ probe : Except VktError FileInfo,
      (file_exists_default probe = .ok false ↔
        ∃ m, probe = .error (VktError.ApiNotFound m))
      ∧ (∀ fi, probe = .ok fi → file_exists_default probe = .ok true)
      ∧ (∀ e, probe = .error e → e.is_not_found = false →
          file_exists_default probe = .error e) := by
  intro probe
  refine ⟨?_, ?_, ?_⟩
  · constructor
    · intro h
      match probe with
      | .ok fi => simp [file_exists_default] at h
      | .error e =>
        match e with
        | .ApiNotFound m => exact ⟨m, rfl⟩
        | .Config m | .Api m | .Network m | .Io m | .Validation m
        | .AuthInvalid m | .PermissionDenied m | .RateLimited m
        | .Conflict m => simp [file_exists_default, VktError.is_not_found] at h
    · rintro ⟨m, rfl⟩
      rfl
  · rintro fi rfl
    rfl
  · rintro e rfl he
    simp [file_exists_default, he]

/-- Witness: the C6 theorem applied at a concrete probe outcome. -/
theorem c6_file_exists_default_witness :
    file_exists_default (.error (VktError.ApiNotFound "missing")) =
      .ok false :=
  (c6_file_exists_default (.error (VktError.ApiNotFound "missing"))).1.mpr
    ⟨"missing", rfl⟩

/-! ## GitCode `file_exists` override
(`GitCodeProvider::file_exists`, `src/api/gitcode/mod.rs`).

The override never calls `get_file_info`: it issues one GET on the
`file_list` endpoint with a `file_name` filter and decides from that
response alone.  The embedding takes the HTTP status, the parsed path list
(for a success response), and the raw body text (for a failure
response). -/

/-- The GitCode override of `file_exists`, as a function of the
`file_list` response. -/
def gitcode_file_exists (file_path : String) (status : Nat)
    (paths : List String) (bodyText : String) : Except VktError Bool :=
  if status = 404 then .ok false
  else if isSuccessStatus status then
    .ok (paths.any (fun p => trimEndSlashes p == trimEndSlashes file_path))
  else .error (handle_response_error status bodyText)

/-- C10: the GitCode `file_exists` override returns `false` on HTTP 404
(before any error classification), and on a success response returns
`true` exactly when the returned path list contains an entry equal to the
queried path after stripping trailing separators from both sides; any
other status is classified as an error, not a boolean. -/
theorem c10_gitcode_file_exists :
    ∀ (fp : String) (status : Nat) (paths : List String) (txt : String),
      (status = 404 → gitcode_file_exists fp status paths txt = .ok false)
      ∧ (isSuccessStatus status = true →
          (gitcode_file_exists fp status paths txt = .ok true ↔
            ∃ p ∈ paths, trimEndSlashes p = trimEndSlashes fp))
      ∧ (status ≠ 404 → isSuccessStatus status = false →
          gitcode_file_exists fp status paths txt =
            .error (handle_response_error status txt)) := by
  intro fp status paths txt
  refine ⟨?_, ?_, ?_⟩
  · rintro rfl
    rfl
  · intro hs
    have h404 : status ≠ 404 := by
      intro h
      rw [h] at hs
      simp [isSuccessStatus] at hs
    unfold gitcode_file_exists
    rw [if_neg h404, if_pos hs]
    constructor
    · intro h
      have := Except.ok.inj h
      simpa [List.any_eq_true] using this
    · intro h
      have : (paths.any fun p => trimEndSlashes p == trimEndSlashes fp) = true := by
        simpa [List.any_eq_true] using h
      rw [this]
  · intro h404 hs
    unfold gitcode_file_exists
    rw [if_neg h404, if_neg (by simp [hs])]

/-- Witness: the C10 theorem applied at concrete responses. -/
theorem c10_gitcode_file_exists_witness :
    gitcode_file_exists "docs/a.md" 404 [] "" = .ok false
    ∧ gitcode_file_exists "docs/a.md" 200 ["docs/a.md/"] "" = .ok true := by
  constructor
  · exact (c10_gitcode_file_exists "docs/a.md" 404 [] "").1 rfl
  · exact ((c10_gitcode_file_exists "docs/a.md" 200 ["docs/a.md/"] "").2.1
      (by decide)).mpr ⟨"docs/a.md/", by decide⟩

/-! ## Remaining canonical model types (`src/api/types.rs`) -/

/-- Author or committer information. -/
structure Author where
  name : String
  email : String
  date : Option String
deriving Repr, DecidableEq

/-- Commit metadata. -/
structure Commit where
  id : String
  message : String
  author : Option Author
  timestamp : Option String
deriving Repr, DecidableEq

/-- Branch information. -/
structure Branch where
  name : String
  commit : Commit
deriving Repr, DecidableEq

/-- File content metadata inside an upsert response. -/
structure FileContent where
  name : String
  path : String
  sha : String
  size : Option Nat
  download_url : Option String
deriving Repr, DecidableEq

/-- Response of a file create or update. -/
structure FileCommitResponse where
  content : FileContent
  commit : Commit
deriving Repr, DecidableEq

/-- Repository reference carried by a pull-request branch reference. -/
structure RepositoryRef where
  full_name : String
deriving Repr, DecidableEq

/-- Pull-request branch reference. -/
structure PullRequestRef where
  ref_branch : String
  repo : Option RepositoryRef
deriving Repr, DecidableEq

/-- Canonical pull-request information. -/
structure PullRequest where
  number : Nat
  title : String
  html_url : Option String
  state : String
  head : Option PullRequestRef
  base : Option PullRequestRef
  body : Option String
deriving Repr, DecidableEq

/-! ## Upsert SHA resolution (`GitCodeProvider::create_or_update_file`,
`src/api/gitcode/mod.rs`).

The two `get_file_info` probes and the final HTTP request are modelled as
oracle functions; the Rust `println!` logging has no observable effect on
the result and is dropped. -/

/-- HTTP method chosen for the upsert request. -/
inductive HttpMethod where
  | post
  | put
deriving Repr, DecidableEq

/-- Request body `CreateFileRequest` from `src/api/gitcode/types.rs`. -/
structure CreateFileRequest where
  message : String
  content : String
  branch : String
  sha : Option String
  author_name : Option String
  author_email : Option String
deriving Repr, DecidableEq

/-- Method `GitCodeProvider::create_or_update_file`: resolve an existing
SHA by probing the target branch, then the default branch, treating any
probe failure as a miss, and send a POST (create) or PUT (update)
accordingly. -/
def create_or_update_file
    (getInfo : String → Option String → Except VktError FileInfo)
    (send : HttpMethod → CreateFileRequest → Except VktError FileCommitResponse)
    (default_branch file_path content branch message
      author_name author_email : String) :
    Except VktError FileCommitResponse :=
  let existing_sha :=
    match getInfo file_path (some branch) with
    | .ok file_info => file_info.sha
    | .error _ =>
      match getInfo file_path (some default_branch) with
      | .ok file_info => file_info.sha
      | .error _ => none
  let body : CreateFileRequest :=
    { message := message, content := content, branch := branch,
      sha := existing_sha, author_name := some author_name,
      author_email := some author_email }
  let method := if existing_sha.isSome then HttpMethod.put else HttpMethod.post
  send method body

/-- A concrete upsert response used by closed statements. -/
def sampleCommitResponse : FileCommitResponse :=
  { content := { name := "a.md", path := "docs/a.md", sha := "c0ffee",
                 size := none, download_url := none }
    commit := { id := "c0ffee", message := "m", author := none,
                timestamp := none } }

/-- C4 counterexample: when both SHA probes fail with `AuthInvalid` (not
`NotFound`), the upsert does not propagate the probe error to the caller;
it silently falls through to create mode and returns whatever the send
oracle produces. -/
theorem c4_counterexample :
    create_or_update_file
        (fun _ _ => .error (VktError.AuthInvalid "bad token"))
        (fun _ _ => .ok sampleCommitResponse)
        "main" "docs/a.md" "Q29udGVudA==" "feat/x" "msg" "n" "e" =
      .ok sampleCommitResponse
    ∧ ∀ e : VktError,
        create_or_update_file
            (fun _ _ => .error (VktError.AuthInvalid "bad token"))
            (fun _ _ => .ok sampleCommitResponse)
            "main" "docs/a.md" "Q29udGVudA==" "feat/x" "msg" "n" "e" ≠
          .error e := by
  constructor
  · rfl
  · intro e h
    cases h

/-- C4 (amended): during SHA resolution, an error of any kind (NotFound or
otherwise) from the target-branch probe falls through to the
default-branch probe, an error of any kind from that probe falls through
to create mode (POST with no SHA); no probe error propagates.  A
successful probe yields update mode exactly when it carries a SHA. -/
theorem c4_sha_probe_fallthrough :
    ∀ (getInfo : String → Option String → Except VktError FileInfo)
      (send : HttpMethod → CreateFileRequest →
        Except VktError FileCommitResponse)
      (default_branch file_path content branch message an ae : String),
      (∀ e1 e2, getInfo file_path (some branch) = .error e1 →
        getInfo file_path (some default_branch) = .error e2 →
        create_or_update_file getInfo send default_branch file_path content
            branch message an ae =
          send HttpMethod.post
            { message := message, content := content, branch := branch,
              sha := none, author_name := some an, author_email := some ae })
      ∧ (∀ fi, getInfo file_path (some branch) = .ok fi →
          create_or_update_file getInfo send default_branch file_path content
              branch message an ae =
            send (if fi.sha.isSome then HttpMethod.put else HttpMethod.post)
              { message := message, content := content, branch := branch,
                sha := fi.sha, author_name := some an,
                author_email := some ae })
      ∧ (∀ e1 fi, getInfo file_path (some branch) = .error e1 →
          getInfo file_path (some default_branch) = .ok fi →
          create_or_update_file getInfo send default_branch file_path content
              branch message an ae =
            send (if fi.sha.isSome then HttpMethod.put else HttpMethod.post)
              { message := message, content := content, branch := branch,
                sha := fi.sha, author_name := some an,
                author_email := some ae }) := by
  intro getInfo send default_branch file_path content branch message an ae
  refine ⟨?_, ?_, ?_⟩
  · intro e1 e2 h1 h2
    unfold create_or_update_file
    rw [h1, h2]
    rfl
  · intro fi h1
    unfold create_or_update_file
    rw [h1]
  · intro e1 fi h1 h2
    unfold create_or_update_file
    rw [h1, h2]

/-! ## Base64 (`base64::engine::general_purpose::STANDARD.encode`) -/

/-- The standard base64 alphabet. -/
def b64Alphabet : List Char :=
  "ABCDEFGHIJKLMNOPQRSTUVWXYZabcdefghijklmnopqrstuvwxyz0123456789+/".data

/-- Base64 digit for a 6-bit value. -/
def b64Char (n : Nat) : Char :=
  b64Alphabet.getD n 'A'

/-- Encode one group of at most three bytes into four base64 characters. -/
def base64Group (g : List Nat) : List Char :=
  match g with
  | [a] =>
    let n := a <<< 16
    [b64Char ((n >>> 18) &&& 63), b64Char ((n >>> 12) &&& 63), '=', '=']
  | [a, b] =>
    let n := (a <<< 16) ||| (b <<< 8)
    [b64Char ((n >>> 18) &&& 63), b64Char ((n >>> 12) &&& 63),
     b64Char ((n >>> 6) &&& 63), '=']
  | [a, b, c] =>
    let n := (a <<< 16) ||| (b <<< 8) ||| c
    [b64Char ((n >>> 18) &&& 63), b64Char ((n >>> 12) &&& 63),
     b64Char ((n >>> 6) &&& 63), b64Char (n &&& 63)]
  | _ => []

/-- Standard base64 encoding with padding. -/
def base64Encode (bytes : List Nat) : String :=
  ⟨((List.range ((bytes.length + 2) / 3)).map
    (fun i => base64Group ((bytes.drop (3 * i)).take 3))).flatten⟩

/-! ## Configuration (`src/config/mod.rs`) -/

/-- User section of the configuration. -/
structure UserConfig where
  name : String
  email : String
  auto_signoff : Bool
deriving Repr, DecidableEq

/-- Remote section of the configuration. -/
structure RemoteConfig where
  provider : String
  api_url : String
  token : String
deriving Repr, DecidableEq

/-- Repository section of the configuration. -/
structure RepoConfig where
  project_id : String
  default_branch : String
deriving Repr, DecidableEq

/-- Template section of the configuration. -/
structure TemplateConfig where
  pr_prefix : String
deriving Repr, DecidableEq

/-- The full configuration. -/
structure Config where
  user : UserConfig
  remote : RemoteConfig
  repo : RepoConfig
  template : TemplateConfig
deriving Repr, DecidableEq

/-! ## Pull-request payload translation (`src/api/gitcode/types.rs`) -/

/-- User information in GitCode payloads. -/
structure GitCodeUser where
  login : Option String
  name : Option String
  username : Option String
  id : Option Nat
  avatar_url : Option String
  html_url : Option String
deriving Repr, DecidableEq

/-- Repository information nested in GitCode pull-request references. -/
structure GitCodeRepoInfo where
  id : Nat
  name : String
  full_name : String
  private_flag : Option Bool
  owner : Option GitCodeUser
  html_url : Option String
  description : Option String
  default_branch : Option String
  clone_url : Option String
  ssh_url : Option String
deriving Repr, DecidableEq

/-- Head or base reference in a GitCode pull-request payload. -/
structure GitCodePullRef where
  label : Option String
  ref_name : Option String
  name : Option String
  sha : String
  repo : Option GitCodeRepoInfo
deriving Repr, DecidableEq

/-- Raw GitCode pull-request payload (`GitCodePullResponse`), carrying
both GitHub-style and GitLab-style optional fields. -/
structure GitCodePullResponse where
  number : Option Nat
  node_id : Option String
  id : Option Nat
  iid : Option Nat
  project_id : Option Nat
  title : String
  body : Option String
  description : Option String
  state : String
  html_url : Option String
  web_url : Option String
  head : Option GitCodePullRef
  base : Option GitCodePullRef
  source_branch : Option String
  target_branch : Option String
  user : Option GitCodeUser
  author : Option GitCodeUser
deriving Repr, DecidableEq

/-- The `From<GitCodePullResponse> for PullRequest` conversion: the
canonical number prefers `number`, falls back to `iid`, then to `0`; URLs
and bodies use GitHub-then-GitLab fallbacks; branch references prefer the
explicit reference name, then the alternate name, then a synthesized
`sha:<sha>` placeholder. -/
def gitcode_pull_to_pull_request (pr : GitCodePullResponse) : PullRequest :=
  let number := (pr.number.or pr.iid).getD 0
  let html_url := pr.html_url.or pr.web_url
  let body := pr.body.or pr.description
  let head_info :=
    match pr.head with
    | some head =>
      let branch_name := (head.ref_name.or head.name).getD ("sha:" ++ head.sha)
      some { ref_branch := branch_name
             repo := head.repo.map (fun r => { full_name := r.full_name })
             : PullRequestRef }
    | none =>
      pr.source_branch.map
        (fun source_branch => { ref_branch := source_branch, repo := none })
  let base_info :=
    match pr.base with
    | some base =>
      let branch_name := (base.ref_name.or base.name).getD ("sha:" ++ base.sha)
      some { ref_branch := branch_name
             repo := base.repo.map (fun r => { full_name := r.full_name })
             : PullRequestRef }
    | none =>
      pr.target_branch.map
        (fun target_branch => { ref_branch := target_branch, repo := none })
  { number := number, title := pr.title, html_url := html_url,
    state := pr.state, head := head_info, base := base_info, body := body }

/-- C9: translating a pull-request payload never fails on a missing
number: the canonical number is `number`, then `iid`, then `0`, so a
payload carrying neither field translates (totally) to a `PullRequest`
with number `0`. -/
theorem c9_pr_number_fallback :
    ∀ pr : GitCodePullResponse,
      (gitcode_pull_to_pull_request pr).number = (pr.number.or pr.iid).getD 0
      ∧ (pr.number = none → pr.iid = none →
          (gitcode_pull_to_pull_request pr).number = 0)
      ∧ (∀ n, pr.number = some n →
          (gitcode_pull_to_pull_request pr).number = n)
      ∧ (∀ n, pr.number = none → pr.iid = some n →
          (gitcode_pull_to_pull_request pr).number = n) := by
  intro pr
  refine ⟨rfl, ?_, ?_, ?_⟩
  · intro h1 h2
    show (pr.number.or pr.iid).getD 0 = 0
    rw [h1, h2]
    rfl
  · intro n h
    show (pr.number.or pr.iid).getD 0 = n
    rw [h]
    rfl
  · intro n h1 h2
    show (pr.number.or pr.iid).getD 0 = n
    rw [h1, h2]
    rfl

/-- A concrete pull-request payload carrying neither `number` nor `iid`. -/
def samplePullNoNumber : GitCodePullResponse :=
  { number := none, node_id := none, id := none, iid := none,
    project_id := none, title := "t", body := none, description := none,
    state := "open", html_url := none, web_url := none, head := none,
    base := none, source_branch := none, target_branch := none,
    user := none, author := none }

/-- Witness: the C9 theorem applied to a payload with no number fields. -/
theorem c9_pr_number_fallback_witness :
    (gitcode_pull_to_pull_request samplePullNoNumber).number = 0 :=
  (c9_pr_number_fallback samplePullNoNumber).2.1 rfl rfl

/-! ## Branch-name synthesis (`SubmitCommand::generate_branch_name`,
`src/commands/submit.rs`).

The `SubmitArgs` struct lives in the excluded CLI layer; its fields are
fixed by the uses in `src/commands/submit.rs` and its tests.  The Unix
timestamp read from the clock is passed in explicitly. -/

/-- Command-line arguments of the submit command, as used by
`src/commands/submit.rs`. -/
structure SubmitArgs where
  local_path : String
  target : String
  msg : String
  force : Bool
  dry_run : Bool
  branch : Option String
deriving Repr, DecidableEq

/-- Method `SubmitCommand::generate_branch_name`: an explicit branch name
is used verbatim; otherwise the name is synthesized from the timestamp and
the first word of the message with `:` removed, `/` replaced by `-`, and
the result lower-cased. -/
def generate_branch_name (args : SubmitArgs) (timestamp : Int)
    (msg : String) : String :=
  match args.branch with
  | some branch => branch
  | none =>
    let msg_suffix :=
      toLowerStr (slashesToDashes (removeColons ((firstWord msg).getD "submit")))
    "feat/vkt-submit-" ++ toString timestamp ++ "-" ++ msg_suffix

/-- The claim wording for the synthesized suffix: the first word of the
message with `:` and `/` stripped, lower-cased. -/
def spec_c8_claim_suffix (msg : String) : String :=
  toLowerStr ⟨((firstWord msg).getD "submit").data.filter
    (fun c => c != ':' && c != '/')⟩

/-- The amended wording for the synthesized suffix: the first word of the
message (defaulting to `submit` when the message has none) with `:`
removed and `/` replaced by `-`, lower-cased. -/
def spec_c8_amended_suffix (msg : String) : String :=
  toLowerStr ⟨(((firstWord msg).getD "submit").data.filter (· != ':')).map
    (fun c => if c == '/' then '-' else c)⟩

/-- C8 counterexample: for the message `"a/b"` the code produces the
suffix `a-b` (slash replaced by a dash), not the suffix `ab` the claim's
"stripped" wording dictates. -/
theorem c8_counterexample :
    generate_branch_name
        { local_path := "./t.sh", target := "scripts/", msg := "a/b",
          force := false, dry_run := false, branch := none } 123 "a/b" =
      "feat/vkt-submit-123-a-b"
    ∧ "feat/vkt-submit-" ++ toString (123 : Int) ++ "-" ++
        spec_c8_claim_suffix "a/b" = "feat/vkt-submit-123-ab"
    ∧ generate_branch_name
        { local_path := "./t.sh", target := "scripts/", msg := "a/b",
          force := false, dry_run := false, branch := none } 123 "a/b" ≠
      "feat/vkt-submit-" ++ toString (123 : Int) ++ "-" ++
        spec_c8_claim_suffix "a/b" := by
  refine ⟨?_, ?_, ?_⟩ <;> decide

/-- C8 (amended): an explicit branch name is used verbatim; otherwise the
pipeline synthesizes `feat/vkt-submit-<unix-timestamp>-<suffix>` where the
suffix is the first whitespace-separated word of the message (defaulting
to `submit` for a wordless message) with `:` removed, `/` replaced by
`-`, and the result lower-cased. -/
theorem c8_branch_name :
    ∀ (args : SubmitArgs) (ts : Int) (msg : String),
      (∀ b, args.branch = some b → generate_branch_name args ts msg = b)
      ∧ (args.branch = none →
          generate_branch_name args ts msg =
            "feat/vkt-submit-" ++ toString ts ++ "-" ++
              spec_c8_amended_suffix msg) := by
  intro args ts msg
  constructor
  · intro b hb
    unfold generate_branch_name
    rw [hb]
  · intro hb
    unfold generate_branch_name
    rw [hb]
    rfl

/-- Witness: the amended C8 theorem applied at concrete arguments. -/
theorem c8_branch_name_witness :
    generate_branch_name
        { local_path := "./t.sh", target := "scripts/", msg := "m",
          force := false, dry_run := false, branch := some "custom/branch" }
        99 "feat: test" = "custom/branch" :=
  (c8_branch_name
      { local_path := "./t.sh", target := "scripts/", msg := "m",
        force := false, dry_run := false, branch := some "custom/branch" }
      99 "feat: test").1 "custom/branch" rfl

/-- Witness: the amended C4 theorem applied at concrete oracles. -/
theorem c4_sha_probe_fallthrough_witness :
    create_or_update_file (fun _ _ => .error (VktError.Network "down"))
        (fun _ _ => .ok sampleCommitResponse)
        "main" "docs/a.md" "QQ==" "feat/x" "msg" "n" "e" =
      (fun (_ : HttpMethod) (_ : CreateFileRequest) =>
          (.ok sampleCommitResponse : Except VktError FileCommitResponse))
        HttpMethod.post
        { message := "msg", content := "QQ==", branch := "feat/x",
          sha := none, author_name := some "n", author_email := some "e" } :=
  (c4_sha_probe_fallthrough (fun _ _ => .error (VktError.Network "down"))
      (fun _ _ => .ok sampleCommitResponse)
      "main" "docs/a.md" "QQ==" "feat/x" "msg" "n" "e").1
    (VktError.Network "down") (VktError.Network "down") rfl rfl

/-! ## Submission pipeline (`SubmitCommand::execute`,
`src/commands/submit.rs`).

The remote API is an oracle record; local filesystem facts (file
existence, the directory check, the file name computed by
`Path::file_name`, the file bytes) and the two clock readings (the Unix
timestamp and the RFC 3339 time string) are explicit inputs.  The result
is paired with the list of remote mutation requests issued, in order, so
that "zero remote mutations" is a statement about the embedded run. -/

/-- Oracle for the remote operations the submission pipeline performs. -/
structure ForgeApi where
  get_file_info : String → Option String → Except VktError FileInfo
  list_repository_tree :
    Option String → Bool → Option String → Except VktError (List TreeItem)
  create_branch : String → String → Except VktError Branch
  create_or_update_file :
    String → String → String → String → String → String →
      Except VktError FileCommitResponse
  create_pull_request :
    String → String → String → Option String → Except VktError PullRequest

/-- One remote mutation request issued by the pipeline. -/
inductive RemoteMutation where
  | branchCreated (name source : String)
  | fileUpserted (path branch : String)
  | prCreated (title head base : String)
deriving Repr, DecidableEq

/-- Method `SubmitCommand::generate_file_hash`: full SHA-256 hex digest of
the file bytes. -/
def generate_file_hash (content : List Nat) : String :=
  bytesToHex (sha256Bytes content)

/-- Method `SubmitCommand::generate_commit_message` (the RFC 3339 time
string is passed in). -/
def generate_commit_message (msg local_path file_hash : String)
    (config : Config) (now : String) : String :=
  if config.user.auto_signoff then
    msg ++ "\n\nOriginal-File: " ++ local_path ++ "\nOriginal-File-Hash: " ++
      file_hash ++ "\nDate: " ++ now ++ "\nSigned-off-by: " ++
      config.user.name ++ " <" ++ config.user.email ++ ">\n"
  else
    msg ++ "\n\nOriginal-File: " ++ local_path ++ "\nOriginal-File-Hash: " ++
      file_hash ++ "\nDate: " ++ now ++ "\n"

/-- Method `SubmitCommand::generate_pr_body`. -/
def generate_pr_body (msg local_path file_hash : String) (config : Config)
    (now : String) : String :=
  "## Change Description\n" ++ msg ++ "\n\n## Trace Information\n- Original File: " ++
    local_path ++ "\n- File Hash: " ++ file_hash ++ "\n- Submission Time: " ++
    now ++ "\n- Submitter: " ++ config.user.name ++ " <" ++
    config.user.email ++ ">"

/-- Method `SubmitCommand::execute`: validation, remote collision check,
repository readiness check, branch derivation, dry-run short-circuit,
branch creation, upload, and pull-request creation, in source order. -/
def execute_submit (api : ForgeApi) (config : Config) (args : SubmitArgs)
    (local_exists local_is_dir : Bool) (file_name : Option String)
    (content : List Nat) (timestamp : Int) (now : String) :
    Except VktError Unit × List RemoteMutation :=
  if local_exists = false then
    (.error (.Validation ("File does not exist: " ++ args.local_path)), [])
  else if local_is_dir = true then
    (.error (.Validation
      "Directory submission not yet supported, please specify a single file"),
     [])
  else
    match file_name with
    | none => (.error (.Validation "Invalid filename"), [])
    | some fname =>
      match (match api.get_file_info (trimEndSlashes args.target ++ "/" ++ fname)
              (some config.repo.default_branch) with
             | .ok _ => .ok true
             | .error e =>
               if e.is_not_found then .ok false
               else .error e : Except VktError Bool) with
      | .error e => (.error e, [])
      | .ok remote_exists =>
        if remote_exists && !args.force then
          (.error (.Validation ("Remote file already exists: " ++
            (trimEndSlashes args.target ++ "/" ++ fname) ++
            ". Use --force to overwrite")), [])
        else
          match (match api.list_repository_tree none false
                  (some config.repo.default_branch) with
                 | .ok tree => .ok (!tree.isEmpty)
                 | .error e =>
                   if e.is_not_found then .ok false
                   else .error e : Except VktError Bool) with
          | .error e => (.error e, [])
          | .ok repo_has_commits =>
            if !repo_has_commits then
              (.error (.Validation
                "Repository not initialized. Please create a README file via web UI first."),
               [])
            else
              let target_branch := generate_branch_name args timestamp args.msg
              if args.dry_run then (.ok (), [])
              else
                match api.create_branch target_branch
                    config.repo.default_branch with
                | .error e =>
                  (.error e,
                   [.branchCreated target_branch config.repo.default_branch])
                | .ok _ =>
                  let content_hash := generate_file_hash content
                  let base64_content := base64Encode content
                  let commit_message := generate_commit_message args.msg
                    args.local_path content_hash config now
                  match api.create_or_update_file
                      (trimEndSlashes args.target ++ "/" ++ fname)
                      base64_content target_branch commit_message
                      config.user.name config.user.email with
                  | .error e =>
                    (.error e,
                     [.branchCreated target_branch config.repo.default_branch,
                      .fileUpserted (trimEndSlashes args.target ++ "/" ++ fname)
                        target_branch])
                  | .ok _ =>
                    let pr_title := config.template.pr_prefix ++ " " ++ args.msg
                    let pr_body := generate_pr_body args.msg args.local_path
                      content_hash config now
                    match api.create_pull_request pr_title target_branch
                        config.repo.default_branch (some pr_body) with
                    | .error e =>
                      (.error e,
                       [.branchCreated target_branch config.repo.default_branch,
                        .fileUpserted
                          (trimEndSlashes args.target ++ "/" ++ fname)
                          target_branch,
                        .prCreated pr_title target_branch
                          config.repo.default_branch])
                    | .ok _ =>
                      (.ok (),
                       [.branchCreated target_branch config.repo.default_branch,
                        .fileUpserted
                          (trimEndSlashes args.target ++ "/" ++ fname)
                          target_branch,
                        .prCreated pr_title target_branch
                          config.repo.default_branch])

/-- A concrete remote oracle on which every operation succeeds and the
collision probe finds an existing file. -/
def c3Api : ForgeApi :=
  { get_file_info := fun _ _ =>
      .ok { name := none, path := none, size := none, content := none,
            sha := some "abc" }
    list_repository_tree := fun _ _ _ => .ok []
    create_branch := fun n _ =>
      .ok { name := n,
            commit := { id := "sha", message := "", author := none,
                        timestamp := none } }
    create_or_update_file := fun _ _ _ _ _ _ => .ok sampleCommitResponse
    create_pull_request := fun t _ _ b =>
      .ok { number := 1, title := t, html_url := none, state := "open",
            head := none, base := none, body := b } }

/-- A concrete configuration mirroring the test fixture in
`src/commands/submit.rs`. -/
def c3Config : Config :=
  { user := { name := "Test User", email := "test@example.com",
              auto_signoff := true }
    remote := { provider := "Gitcode", api_url := "https://api.example.com",
                token := "test-token" }
    repo := { project_id := "owner/repo", default_branch := "main" }
    template := { pr_prefix := "[TEST]" } }

/-- Concrete submit arguments without the force flag. -/
def c3Args : SubmitArgs :=
  { local_path := "./test.sh", target := "scripts/",
    msg := "feat: add test script", force := false, dry_run := false,
    branch := none }

/-- C3 counterexample: with a target that exists on the default branch and
no force flag, the pipeline aborts with a `Validation` error — not a
`Conflict`-class error as claimed — and issues zero remote mutations. -/
theorem c3_counterexample :
    execute_submit c3Api c3Config c3Args true false (some "test.sh") [] 0 "T" =
      (.error (.Validation
        "Remote file already exists: scripts/test.sh. Use --force to overwrite"),
       [])
    ∧ (VktError.Validation
        "Remote file already exists: scripts/test.sh. Use --force to overwrite").is_conflict
        = false := by
  constructor
  · rfl
  · rfl

/-- C3 (amended): whenever the collision probe on the computed target path
against the default branch succeeds and the caller did not request an
overwrite, the pipeline aborts at the collision check with a
`Validation`-class error whose message names the colliding path, having
issued zero remote mutations. -/
theorem c3_collision_aborts_without_mutation :
    ∀ (api : ForgeApi) (config : Config) (args : SubmitArgs)
      (fname : String) (fi : FileInfo) (content : List Nat)
      (ts : Int) (now : String),
      args.force = false →
      api.get_file_info (trimEndSlashes args.target ++ "/" ++ fname)
          (some config.repo.default_branch) = .ok fi →
      execute_submit api config args true false (some fname) content ts now =
        (.error (.Validation ("Remote file already exists: " ++
          (trimEndSlashes args.target ++ "/" ++ fname) ++
          ". Use --force to overwrite")), []) := by
  intro api config args fname fi content ts now hforce hprobe
  simp only [execute_submit, hprobe, hforce]
  simp

/-- Witness: the amended C3 theorem applied at concrete inputs. -/
theorem c3_collision_aborts_without_mutation_witness :
    execute_submit c3Api c3Config c3Args true false (some "test.sh") [] 5 "T" =
      (.error (.Validation ("Remote file already exists: " ++
        (trimEndSlashes "scripts/" ++ "/" ++ "test.sh") ++
        ". Use --force to overwrite")), []) :=
  c3_collision_aborts_without_mutation c3Api c3Config c3Args "test.sh"
    { name := none, path := none, size := none, content := none,
      sha := some "abc" } [] 5 "T" rfl rfl

end ForgeFlow
